import Mathlib

/-!
Verification of the SimChat real-time communication backend: message
delivery receipts, presence registry, SFU media rooms, auto-recording and
the call lifecycle, embedded shallowly from the JavaScript source
(`index.js`, `mediaServer.js`, `db/queries/*.js`).
-/

namespace SimChat

/-! ## Message delivery statuses (`db/queries/messages.js`) -/

/-- Per-recipient delivery status of a message
(`message_status.status ∈ {sent, delivered, read}`). -/
inductive MsgStatus
  | sent
  | delivered
  | read
deriving DecidableEq, Repr, BEq

/-- The numeric score the `listByRoom` SQL assigns to a status:
`CASE ms.status WHEN 'read' THEN 2 WHEN 'delivered' THEN 1 ELSE 0 END`. -/
def statusScore : MsgStatus → Nat
  | .sent => 0
  | .delivered => 1
  | .read => 2

/-- The aggregated `delivery_status` computed by `MessageQueries.listByRoom`:
`CASE WHEN COUNT(*) = 0 THEN 'sent' WHEN MIN(score) >= 2 THEN 'read'
WHEN MIN(score) >= 1 THEN 'delivered' ELSE 'sent' END` over the status rows
of one message. -/
def deliveryStatusSql (rows : List MsgStatus) : MsgStatus :=
  match rows with
  | [] => .sent
  | r :: rs =>
      let m := (rs.map statusScore).foldl Nat.min (statusScore r)
      if 2 ≤ m then .read
      else if 1 ≤ m then .delivered
      else .sent

/-- Minimum of two statuses under the ordering `sent < delivered < read`. -/
def statusMin (a b : MsgStatus) : MsgStatus :=
  if statusScore a ≤ statusScore b then a else b

/-- Modelled from the spec words: the delivery status of a message is `sent`
when no status rows exist, else the minimum of the per-recipient statuses
under `sent < delivered < read`. -/
def deliveryStatusSpec (rows : List MsgStatus) : MsgStatus :=
  match rows with
  | [] => .sent
  | r :: rs => rs.foldl statusMin r

theorem statusScore_statusMin (a b : MsgStatus) :
    statusScore (statusMin a b) = Nat.min (statusScore a) (statusScore b) := by
  cases a <;> cases b <;> rfl

theorem statusScore_foldl (rs : List MsgStatus) (r : MsgStatus) :
    statusScore (rs.foldl statusMin r) =
      (rs.map statusScore).foldl Nat.min (statusScore r) := by
  induction rs generalizing r with
  | nil => rfl
  | cons a t ih =>
      simp only [List.foldl_cons, List.map_cons, ih, statusScore_statusMin]

/-- C6: for every message returned by `get_messages`, `delivery_status` is
`sent` when the message has no status rows, and otherwise the minimum of the
per-recipient statuses under `sent < delivered < read`. -/
theorem c6_delivery_status_is_min (rows : List MsgStatus) :
    deliveryStatusSql rows = deliveryStatusSpec rows := by
  cases rows with
  | nil => rfl
  | cons r rs =>
      show (if 2 ≤ (rs.map statusScore).foldl Nat.min (statusScore r) then MsgStatus.read
            else if 1 ≤ (rs.map statusScore).foldl Nat.min (statusScore r) then .delivered
            else .sent) = rs.foldl statusMin r
      rw [← statusScore_foldl]
      cases h : rs.foldl statusMin r <;> simp [h, statusScore]

/-! ## Message status rows and the receipt handlers
(`MessageQueries.setStatus`, `MessageQueries.markRoomAs`, and the
`message_delivered` / `mark_read` socket handlers of `index.js`) -/

/-- A row of the `message_status` table (keyed by `(message_id, user_id)`). -/
structure MsgStatusRow where
  messageId : Nat
  userId : Nat
  status : MsgStatus
deriving DecidableEq, Repr

/-- The status stored for `(mid, uid)`, i.e.
`SELECT status FROM message_status WHERE message_id = mid AND user_id = uid`. -/
def statusOf (rows : List MsgStatusRow) (mid uid : Nat) : Option MsgStatus :=
  (rows.find? (fun r => r.messageId == mid && r.userId == uid)).map (·.status)

/-- Row-level semantics of `INSERT INTO message_status ... ON CONFLICT
(message_id, user_id) DO UPDATE SET status = EXCLUDED.status [WHERE
message_status.status != EXCLUDED.status]`: the table has at most one row
per key (`UNIQUE(message_id, user_id)`), so the upsert updates the matching
row when one exists (subject to the optional `WHERE` guard, present when
`guarded = true`) and appends a fresh row otherwise. -/
def upsertRow (guarded : Bool) (rows : List MsgStatusRow) (mid uid : Nat)
    (st : MsgStatus) : List MsgStatusRow :=
  match rows with
  | [] => [⟨mid, uid, st⟩]
  | r :: rs =>
      if r.messageId = mid ∧ r.userId = uid then
        (if guarded = false ∨ r.status ≠ st then { r with status := st } else r)
          :: rs
      else
        r :: upsertRow guarded rs mid uid st

/-- Source: `MessageQueries.setStatus`: unconditional upsert
(`DO UPDATE SET status = EXCLUDED.status`, no `WHERE` guard). -/
def setStatus (rows : List MsgStatusRow) (mid uid : Nat) (st : MsgStatus) :
    List MsgStatusRow :=
  upsertRow false rows mid uid st

/-- A row of the `messages` table (the fields `markRoomAs` selects on). -/
structure MessageRow where
  mid : Nat
  roomId : Nat
  senderId : Nat
deriving DecidableEq, Repr

/-- One upsert step of `markRoomAs` for a single message id: insert
`(mid, uid, st)`, and on conflict update only when the stored status
differs from `st` (`DO UPDATE ... WHERE message_status.status != $3`). -/
def markOne (uid : Nat) (st : MsgStatus) (rows : List MsgStatusRow) (mid : Nat) :
    List MsgStatusRow :=
  upsertRow true rows mid uid st

/-- Source: `MessageQueries.markRoomAs`: upsert `(m.id, uid, st)` for every message
`m` of the room not sent by `uid`. -/
def markRoomAs (msgs : List MessageRow) (rows : List MsgStatusRow)
    (roomId uid : Nat) (st : MsgStatus) : List MsgStatusRow :=
  ((msgs.filter (fun m => m.roomId == roomId && m.senderId != uid)).map
      (·.mid)).foldl (markOne uid st) rows

/-- The `message_delivered` socket handler persists via
`setStatus(messageId, userId, 'delivered')`, unconditionally. -/
def messageDeliveredHandler (rows : List MsgStatusRow) (mid uid : Nat) :
    List MsgStatusRow :=
  setStatus rows mid uid .delivered

/-- The `mark_read` socket handler persists via
`markRoomAs(roomId, userId, 'read')`. -/
def markReadHandler (msgs : List MessageRow) (rows : List MsgStatusRow)
    (roomId uid : Nat) : List MsgStatusRow :=
  markRoomAs msgs rows roomId uid .read

/-- An `upsertRow` leaves the status stored at any key either unchanged or
equal to the written status `st`. -/
theorem upsertRow_statusOf_other (g : Bool) (rows : List MsgStatusRow)
    (m uid : Nat) (st : MsgStatus) (mid u : Nat) :
    statusOf (upsertRow g rows m uid st) mid u = statusOf rows mid u ∨
      statusOf (upsertRow g rows m uid st) mid u = some st := by
  induction rows with
  | nil =>
      by_cases hp : (m == mid && uid == u) = true
      · right; simp [upsertRow, statusOf, List.find?, hp]
      · left; simp [upsertRow, statusOf, List.find?, hp]
  | cons r rs ih =>
      by_cases hk : r.messageId = m ∧ r.userId = uid
      · rw [upsertRow, if_pos hk]
        by_cases hg : g = false ∨ r.status ≠ st
        · rw [if_pos hg]
          by_cases hp : (r.messageId == mid && r.userId == u) = true
          · right
            have hfind : List.find? (fun r => r.messageId == mid && r.userId == u)
                (({ r with status := st } : MsgStatusRow) :: rs) =
                some ({ r with status := st } : MsgStatusRow) :=
              List.find?_cons_of_pos _ hp
            simp only [statusOf]
            rw [hfind]
            rfl
          · left
            have hfind : List.find? (fun r => r.messageId == mid && r.userId == u)
                (({ r with status := st } : MsgStatusRow) :: rs) =
                List.find? (fun r => r.messageId == mid && r.userId == u) rs :=
              List.find?_cons_of_neg _ hp
            have hfind2 : List.find? (fun r => r.messageId == mid && r.userId == u)
                (r :: rs) =
                List.find? (fun r => r.messageId == mid && r.userId == u) rs :=
              List.find?_cons_of_neg _ hp
            simp only [statusOf]
            rw [hfind, hfind2]
        · rw [if_neg hg]
          left; rfl
      · rw [upsertRow, if_neg hk]
        by_cases hp : (r.messageId == mid && r.userId == u) = true
        · left
          have hfind : ∀ tl, List.find? (fun r => r.messageId == mid && r.userId == u)
              (r :: tl) = some r := fun tl => List.find?_cons_of_pos _ hp
          simp only [statusOf]
          rw [hfind, hfind]
        · have hfind : ∀ tl, List.find? (fun r => r.messageId == mid && r.userId == u)
              (r :: tl) = List.find? (fun r => r.messageId == mid && r.userId == u) tl :=
            fun tl => List.find?_cons_of_neg _ hp
          simp only [statusOf]
          rw [hfind, hfind]
          exact ih

/-- Folding `markOne` steps leaves the status stored at any key either
unchanged or equal to the written status. -/
theorem foldl_markOne_statusOf (uid : Nat) (st : MsgStatus) (mids : List Nat)
    (rows : List MsgStatusRow) (mid u : Nat) :
    statusOf (mids.foldl (markOne uid st) rows) mid u = statusOf rows mid u ∨
      statusOf (mids.foldl (markOne uid st) rows) mid u = some st := by
  induction mids generalizing rows with
  | nil => left; rfl
  | cons m t ih =>
      simp only [List.foldl_cons]
      rcases ih (markOne uid st rows m) with h | h
      · rw [h]; exact upsertRow_statusOf_other true rows m uid st mid u
      · right; exact h

/-- Source: `setStatus` stores exactly the written status at its key. -/
theorem setStatus_statusOf (rows : List MsgStatusRow) (mid uid : Nat)
    (st : MsgStatus) :
    statusOf (setStatus rows mid uid st) mid uid = some st := by
  rw [setStatus]
  induction rows with
  | nil => simp [upsertRow, statusOf, List.find?]
  | cons r rs ih =>
      by_cases hk : r.messageId = mid ∧ r.userId = uid
      · rw [upsertRow, if_pos hk, if_pos (Or.inl rfl)]
        have hp : (r.messageId == mid && r.userId == uid) = true := by
          simpa using hk
        have hfind : List.find? (fun r => r.messageId == mid && r.userId == uid)
            (({ r with status := st } : MsgStatusRow) :: rs) =
            some ({ r with status := st } : MsgStatusRow) :=
          List.find?_cons_of_pos _ hp
        simp only [statusOf]
        rw [hfind]
        rfl
      · rw [upsertRow, if_neg hk]
        have hp : ¬(r.messageId == mid && r.userId == uid) = true := by
          simpa using hk
        have hfind : List.find? (fun r => r.messageId == mid && r.userId == uid)
            (r :: upsertRow false rs mid uid st) =
            List.find? (fun r => r.messageId == mid && r.userId == uid)
              (upsertRow false rs mid uid st) :=
          List.find?_cons_of_neg _ hp
        simp only [statusOf]
        rw [hfind]
        exact ih

/-- C1 counterexample: a recipient whose status is already `read` receives a
`message_delivered` event; `setStatus` overwrites unconditionally, so the
stored status becomes `delivered`, not `read` as the claim states. -/
theorem c1_counterexample :
    statusOf (messageDeliveredHandler [⟨1, 2, .read⟩] 1 2) 1 2 =
        some .delivered ∧
      statusOf (messageDeliveredHandler [⟨1, 2, .read⟩] 1 2) 1 2 ≠
        some .read := by
  constructor
  · rfl
  · decide

/-- C1 amended: `mark_read` (via `markRoomAs` with status `read`) never
replaces a status with an earlier one, but `message_delivered` (via
`setStatus`) overwrites unconditionally: the stored status always becomes
exactly the written one, so a `delivered` receipt applied after `read`
downgrades the status to `delivered`. -/
theorem c1_markRead_monotone_setStatus_overwrites
    (msgs : List MessageRow) (rows : List MsgStatusRow)
    (roomId uid mid u : Nat) (old new st : MsgStatus)
    (h1 : statusOf rows mid u = some old)
    (h2 : statusOf (markReadHandler msgs rows roomId uid) mid u = some new) :
    statusScore old ≤ statusScore new ∧
      statusOf (setStatus rows mid u st) mid u = some st := by
  refine ⟨?_, setStatus_statusOf rows mid u st⟩
  rcases foldl_markOne_statusOf uid .read
      ((msgs.filter (fun m => m.roomId == roomId && m.senderId != uid)).map
        (·.mid)) rows mid u with h | h
  · rw [markReadHandler, markRoomAs] at h2
    rw [h2] at h
    rw [h1] at h
    cases h
    exact Nat.le_refl _
  · rw [markReadHandler, markRoomAs] at h2
    rw [h2] at h
    cases h
    cases old <;> simp [statusScore]

/-- Witness for the C1 amended theorem at a concrete trace: the room has one
message from sender 9; recipient 2 has status `delivered`; `mark_read`
advances it to `read` (score 1 ≤ 2), and `setStatus` with `delivered`
stores `delivered`. -/
theorem c1_amended_witness :
    statusScore .delivered ≤ statusScore .read ∧
      statusOf (setStatus [⟨1, 2, .delivered⟩] 1 2 .delivered) 1 2 =
        some .delivered :=
  c1_markRead_monotone_setStatus_overwrites
    [⟨1, 5, 9⟩] [⟨1, 2, .delivered⟩] 5 2 1 2 .delivered .read .delivered
    (by decide) (by decide)

/-! ## Session registry and presence (`connectedUsers`, `register_user` and
`disconnect` handlers of `index.js`; `UserQueries.setOnlineStatus`) -/

/-- An entry of the `connectedUsers` map:
`socketId -> { socketId, userId, username }`. -/
structure ConnEntry where
  socketId : Nat
  userId : Option Nat
  username : String
deriving DecidableEq, Repr

/-- The socket-hub state the presence claims speak about: the volatile
`connectedUsers` map plus the `users.is_online` column. -/
structure HubState where
  connectedUsers : List (Nat × ConnEntry)
  isOnline : List (Nat × Bool)
deriving DecidableEq, Repr

/-- Source: `Map.get(k)` on an association list. -/
def lookupAssoc {α : Type} (l : List (Nat × α)) (k : Nat) : Option α :=
  (l.find? (fun p => p.1 == k)).map (·.2)

/-- Source: `Map.set(k, v)`: replace in place, or append when absent. -/
def mapSet {α : Type} : List (Nat × α) → Nat → α → List (Nat × α)
  | [], k, v => [(k, v)]
  | p :: ps, k, v => if p.1 = k then (k, v) :: ps else p :: mapSet ps k v

/-- Source: `Map.delete(k)`. -/
def mapDelete {α : Type} (l : List (Nat × α)) (k : Nat) : List (Nat × α) :=
  l.filter (fun p => p.1 != k)

/-- Source: `UserQueries.setOnlineStatus`:
`UPDATE users SET is_online = $2 WHERE id = $1` (the `last_seen` column is
not modelled). -/
def setOnlineStatus (online : List (Nat × Bool)) (uid : Nat) (b : Bool) :
    List (Nat × Bool) :=
  online.map (fun p => if p.1 = uid then (p.1, b) else p)

/-- The `register_user` handler: store the connected-user entry and, when a
`userId` is present, set `is_online = true`. -/
def registerUserHandler (s : HubState) (sid : Nat) (uid : Option Nat)
    (uname : String) : HubState :=
  let s1 : HubState :=
    { s with connectedUsers := mapSet s.connectedUsers sid ⟨sid, uid, uname⟩ }
  match uid with
  | some u => { s1 with isOnline := setOnlineStatus s1.isOnline u true }
  | none => s1

/-- The `disconnect` handler: when the departing socket's entry carries a
`userId`, set `is_online = false` — unconditionally, with no check for other
sessions of the same user — then delete the entry. -/
def disconnectHandler (s : HubState) (sid : Nat) : HubState :=
  let s1 : HubState :=
    match lookupAssoc s.connectedUsers sid with
    | some e =>
        match e.userId with
        | some u => { s with isOnline := setOnlineStatus s.isOnline u false }
        | none => s
    | none => s
  { s1 with connectedUsers := mapDelete s1.connectedUsers sid }

/-- Writing `is_online` for a user stored in the table always lands. -/
theorem lookupAssoc_setOnlineStatus (online : List (Nat × Bool)) (uid : Nat)
    (b b0 : Bool) (h : lookupAssoc online uid = some b0) :
    lookupAssoc (setOnlineStatus online uid b) uid = some b := by
  induction online with
  | nil => simp [lookupAssoc, List.find?] at h
  | cons p ps ih =>
      by_cases hp : p.1 = uid
      · have hpr : (p.1 == uid) = true := by simpa using hp
        simp [setOnlineStatus, lookupAssoc, List.find?, hp, hpr]
      · have hpr : (p.1 == uid) = false := by simpa using hp
        simp only [lookupAssoc, List.find?, hpr] at h
        simp only [setOnlineStatus, lookupAssoc, List.map_cons, List.find?,
          if_neg hp, hpr]
        exact ih h

/-- Deleting one socket leaves every other socket's entry unchanged. -/
theorem lookupAssoc_mapDelete {α : Type} (l : List (Nat × α)) (sid sid' : Nat)
    (h : sid' ≠ sid) : lookupAssoc (mapDelete l sid) sid' = lookupAssoc l sid' := by
  induction l with
  | nil => rfl
  | cons p ps ih =>
      by_cases hp : p.1 = sid
      · have hkeep : (p.1 != sid) = false := by simpa using hp
        have hpr : (p.1 == sid') = false := by
          subst hp; simpa using (Ne.symm h)
        simp only [mapDelete, List.filter_cons, hkeep, lookupAssoc, List.find?,
          hpr]
        exact ih
      · have hkeep : (p.1 != sid) = true := by simpa using hp
        by_cases hq : p.1 = sid'
        · have hpr : (p.1 == sid') = true := by simpa using hq
          simp [mapDelete, List.filter_cons, hkeep, lookupAssoc, List.find?, hpr]
        · have hpr : (p.1 == sid') = false := by simpa using hq
          simp only [mapDelete, List.filter_cons, hkeep, cond_true,
            lookupAssoc, List.find?, hpr]
          exact ih

/-- A state with two live sessions (sockets 1 and 2) of the same user 7, who
is online. -/
def twoSessionState : HubState :=
  { connectedUsers := [(1, ⟨1, some 7, "alice"⟩), (2, ⟨2, some 7, "alice"⟩)],
    isOnline := [(7, true)] }

/-- C2 counterexample: user 7 has two registered sessions; disconnecting
socket 1 flips `is_online` to `false` even though session 2 of the same user
is still registered — the claim says the flag stays `true`. -/
theorem c2_counterexample :
    lookupAssoc (disconnectHandler twoSessionState 1).isOnline 7 = some false ∧
      lookupAssoc (disconnectHandler twoSessionState 1).connectedUsers 2 =
        some ⟨2, some 7, "alice"⟩ := by
  constructor <;> rfl

/-- C2 amended: disconnecting any session whose entry carries a `userId`
sets that user's `is_online` to `false` unconditionally — the handler never
checks for remaining sessions — while every other socket's registry entry is
untouched. -/
theorem c2_disconnect_always_offline (s : HubState) (sid uid : Nat)
    (uname : String) (b : Bool) (sid' : Nat)
    (h : lookupAssoc s.connectedUsers sid = some ⟨sid, some uid, uname⟩)
    (hb : lookupAssoc s.isOnline uid = some b)
    (hs : sid' ≠ sid) :
    lookupAssoc (disconnectHandler s sid).isOnline uid = some false ∧
      lookupAssoc (disconnectHandler s sid).connectedUsers sid' =
        lookupAssoc s.connectedUsers sid' := by
  constructor
  · simp only [disconnectHandler, h]
    exact lookupAssoc_setOnlineStatus s.isOnline uid false b hb
  · simp only [disconnectHandler, h]
    exact lookupAssoc_mapDelete _ sid sid' hs

/-- Witness for the C2 amended theorem at the two-session state: socket 1 of
user 7 disconnects; the flag drops to `false`, and socket 2 stays mapped. -/
theorem c2_amended_witness :
    lookupAssoc (disconnectHandler twoSessionState 1).isOnline 7 =
        some false ∧
      lookupAssoc (disconnectHandler twoSessionState 1).connectedUsers 2 =
        lookupAssoc twoSessionState.connectedUsers 2 :=
  c2_disconnect_always_offline twoSessionState 1 7 "alice" true 2 rfl rfl
    (by decide)

/-! ## Call lifecycle (`db/queries/calls.js` and the `end_call` handler) -/

/-- Status column of the `calls` table. -/
inductive CallStatus
  | ringing
  | ongoing
  | completed
  | missed
  | rejected
deriving DecidableEq, Repr

/-- A row of `call_participants` (the fields the claim speaks about). -/
structure CallParticipant where
  userId : Nat
  answered : Bool
deriving DecidableEq, Repr

/-- A row of the `calls` table with its participants. -/
structure CallRow where
  initiatorId : Nat
  status : CallStatus
  endedAt : Option Nat
  participants : List CallParticipant
deriving DecidableEq, Repr

/-- Source: `CallQueries.updateStatus`: set the status, and also set `ended_at = NOW()`
when the new status is terminal (`completed`, `missed` or `rejected`). -/
def updateCallStatus (c : CallRow) (st : CallStatus) (now : Nat) : CallRow :=
  if st = .completed ∨ st = .missed ∨ st = .rejected then
    { c with status := st, endedAt := some now }
  else
    { c with status := st }

/-- Source: `CallQueries.end`: `updateStatus(id, 'completed')`. -/
def endCallQuery (c : CallRow) (now : Nat) : CallRow :=
  updateCallStatus c .completed now

/-- The `end_call` socket handler: when the room has an active call it runs
`queries.calls.end(callId)` — with no inspection of the call's current status
or of who answered. -/
def endCallHandler (c : CallRow) (now : Nat) : CallRow :=
  endCallQuery c now

/-- A ringing call in which no non-initiator participant has answered. -/
def ringingUnanswered : CallRow :=
  { initiatorId := 1, status := .ringing, endedAt := none,
    participants := [⟨1, false⟩, ⟨2, false⟩] }

/-- C5 counterexample: ending a ringing call that nobody answered sets the
status to `completed`, not to `missed` as the claim states. -/
theorem c5_counterexample :
    ringingUnanswered.status = .ringing ∧
      (ringingUnanswered.participants.all
        (fun p => p.userId == ringingUnanswered.initiatorId || !p.answered)) =
        true ∧
      (endCallHandler ringingUnanswered 100).status = .completed ∧
      (endCallHandler ringingUnanswered 100).status ≠ .missed := by
  refine ⟨rfl, rfl, rfl, by decide⟩

/-- C5 amended: handling `end_call` always sets the call's status to
`completed` and sets `ended_at`, whatever the current status and whether or
not any non-initiator answered; a ringing unanswered call therefore ends as
`completed`, never `missed`. -/
theorem c5_end_call_always_completed (c : CallRow) (now : Nat) :
    (endCallHandler c now).status = .completed ∧
      (endCallHandler c now).endedAt = some now := by
  constructor <;> rfl

/-! ## Private rooms (`RoomQueries.findOrCreatePrivate` and the
`start_private_chat` handler) -/

/-- Source: `rooms.type`. -/
inductive RoomType
  | priv
  | group
deriving DecidableEq, Repr, BEq

/-- A room row together with its `room_participants` user ids. -/
structure RoomRow where
  rid : Nat
  rtype : RoomType
  participants : List Nat
deriving DecidableEq, Repr

/-- The lookup of `findOrCreatePrivate`: a private room having participant
rows for both users (`JOIN rp1 ... user_id = $1 JOIN rp2 ... user_id = $2
WHERE r.type = 'private' LIMIT 1`). -/
def matchesPrivate (a b : Nat) (r : RoomRow) : Bool :=
  r.rtype == RoomType.priv && r.participants.contains a &&
    r.participants.contains b

/-- First private room of the table containing both users. -/
def findPrivate (db : List RoomRow) (a b : Nat) : Option RoomRow :=
  db.find? (matchesPrivate a b)

/-- The rooms table plus the id the next `INSERT INTO rooms` will allocate. -/
structure RoomsDB where
  rooms : List RoomRow
  nextId : Nat
deriving DecidableEq, Repr

/-- Source: `RoomQueries.findOrCreatePrivate(a, b)`: return the existing private
room with `created = false`, or insert a room with both participants and
return it with `created = true`. The result pairs `(roomId, created)` with
the updated table. -/
def findOrCreatePrivate (s : RoomsDB) (a b : Nat) : (Nat × Bool) × RoomsDB :=
  match findPrivate s.rooms a b with
  | some r => ((r.rid, false), s)
  | none =>
      ((s.nextId, true),
        ⟨s.rooms ++ [⟨s.nextId, .priv, [a, b]⟩], s.nextId + 1⟩)

/-- A sequence of `start_private_chat` calls for the pair `{a, b}`; each
element tells whether the arguments are swapped (`true` = `(b, a)`). Returns
the `(roomId, created)` results in order and the final table. -/
def runPrivateChatCalls (s : RoomsDB) (a b : Nat) :
    List Bool → List (Nat × Bool) × RoomsDB
  | [] => ([], s)
  | swap :: rest =>
      let step := if swap then findOrCreatePrivate s b a
                  else findOrCreatePrivate s a b
      let next := runPrivateChatCalls step.2 a b rest
      (step.1 :: next.1, next.2)

theorem matchesPrivate_symm (a b : Nat) (r : RoomRow) :
    matchesPrivate a b r = matchesPrivate b a r := by
  unfold matchesPrivate
  rw [Bool.and_assoc, Bool.and_assoc, Bool.and_comm (r.participants.contains a)]

theorem findPrivate_symm (db : List RoomRow) (a b : Nat) :
    findPrivate db a b = findPrivate db b a := by
  unfold findPrivate
  congr 1
  funext r
  exact matchesPrivate_symm a b r

/-- Once a private room for the pair is in the table, every later call (in
either argument order) returns that room's id with `created = false` and
leaves the table unchanged. -/
theorem runPrivateChatCalls_steady (calls : List Bool) (s : RoomsDB)
    (a b : Nat) (r : RoomRow) (h : findPrivate s.rooms a b = some r) :
    (runPrivateChatCalls s a b calls).1 =
        List.replicate calls.length (r.rid, false) ∧
      (runPrivateChatCalls s a b calls).2 = s := by
  have hba : findPrivate s.rooms b a = some r := by
    rw [← findPrivate_symm]; exact h
  induction calls with
  | nil => exact ⟨rfl, rfl⟩
  | cons swap rest ih =>
      cases swap <;>
        simp only [runPrivateChatCalls, findOrCreatePrivate, h, hba,
          Bool.false_eq_true, if_false, if_true, List.length_cons,
          List.replicate_succ] <;>
        exact ⟨by rw [ih.1], ih.2⟩

/-- C7: starting from a table with no private room for the distinct pair
`{a, b}`, any sequence of `start_private_chat` calls with arguments `(a, b)`
or `(b, a)` returns the same room id every time, and `created` is `true` on
exactly the first call. -/
theorem c7_private_room_dedup (s : RoomsDB) (a b : Nat) (calls : List Bool)
    (hab : a ≠ b) (h : findPrivate s.rooms a b = none) :
    (runPrivateChatCalls s a b calls).1.map Prod.fst =
        List.replicate calls.length s.nextId ∧
      (runPrivateChatCalls s a b calls).1.map Prod.snd =
        (match calls with
         | [] => ([] : List Bool)
         | _ :: rest => true :: List.replicate rest.length false) := by
  cases calls with
  | nil => exact ⟨rfl, rfl⟩
  | cons swap rest =>
      have hba : findPrivate s.rooms b a = none := by
        rw [← findPrivate_symm]; exact h
      have hm1 : matchesPrivate a b ⟨s.nextId, RoomType.priv, [a, b]⟩ = true := by
        simp [matchesPrivate, show (RoomType.priv == RoomType.priv) = true from rfl]
      have hm2 : matchesPrivate a b ⟨s.nextId, RoomType.priv, [b, a]⟩ = true := by
        simp [matchesPrivate, show (RoomType.priv == RoomType.priv) = true from rfl]
      have hroomAB :
          findPrivate (s.rooms ++ [⟨s.nextId, .priv, [a, b]⟩]) a b =
            some ⟨s.nextId, .priv, [a, b]⟩ := by
        unfold findPrivate at h ⊢
        rw [List.find?_append, h]
        simp [List.find?, hm1]
      have hroomBA :
          findPrivate (s.rooms ++ [⟨s.nextId, .priv, [b, a]⟩]) a b =
            some ⟨s.nextId, .priv, [b, a]⟩ := by
        unfold findPrivate at h ⊢
        rw [List.find?_append, h]
        simp [List.find?, hm2]
      obtain ⟨h1, h2⟩ :=
        runPrivateChatCalls_steady rest
          ⟨s.rooms ++ [⟨s.nextId, .priv, [a, b]⟩], s.nextId + 1⟩ a b
          ⟨s.nextId, .priv, [a, b]⟩ hroomAB
      obtain ⟨h1', h2'⟩ :=
        runPrivateChatCalls_steady rest
          ⟨s.rooms ++ [⟨s.nextId, .priv, [b, a]⟩], s.nextId + 1⟩ a b
          ⟨s.nextId, .priv, [b, a]⟩ hroomBA
      cases swap
      · simp [runPrivateChatCalls, findOrCreatePrivate, h, h1,
          List.map_replicate, List.replicate_succ]
      · simp [runPrivateChatCalls, findOrCreatePrivate, hba, h1',
          List.map_replicate, List.replicate_succ]

/-- Witness for C7: an empty table, users 1 and 2, and the call sequence
`(1,2)`, `(2,1)`, `(1,2)`: ids are `[0, 0, 0]` and the `created` flags are
`[true, false, false]`. -/
theorem c7_witness :
    (runPrivateChatCalls ⟨[], 0⟩ 1 2 [false, true, false]).1.map Prod.fst =
        List.replicate 3 0 ∧
      (runPrivateChatCalls ⟨[], 0⟩ 1 2 [false, true, false]).1.map Prod.snd =
        true :: List.replicate 2 false :=
  c7_private_room_dedup ⟨[], 0⟩ 1 2 [false, true, false] (by decide) rfl

/-! ## Recording RTP tap ports (`MediaServer.createRecordingInput`) -/

/-- The UDP port chosen for one RTP tap:
`20000 + Math.floor(Math.random() * 9000)`, the random draw being a value
below 9000. No retry or collision check follows. -/
def recordingRtpPort (draw : Fin 9000) : Nat := 20000 + draw.val

/-- The ports of the taps created by the `createRecordingInput` loop of
`startRecording`, one per producer, each from its own random draw. -/
def recordingInputPorts (draws : List (Fin 9000)) : List Nat :=
  draws.map recordingRtpPort

/-- C8 counterexample: two taps whose draws are both 0 get the same UDP port
20000 — the code never rechecks, so live taps can share a port, contrary to
the claim that the ports always differ. -/
theorem c8_counterexample :
    recordingInputPorts [(0 : Fin 9000), (0 : Fin 9000)] = [20000, 20000] ∧
      ¬(recordingInputPorts [(0 : Fin 9000), (0 : Fin 9000)]).Nodup := by
  constructor
  · rfl
  · decide

/-- C8 amended: every tap port lies in the window `[20000, 28999]`, and the
ports of a recording's taps are pairwise distinct exactly when the random
draws are pairwise distinct — equal draws yield equal ports, with no retry. -/
theorem c8_ports_window_and_distinct_iff (draws : List (Fin 9000))
    (d : Fin 9000) :
    20000 ≤ recordingRtpPort d ∧ recordingRtpPort d < 29000 ∧
      ((recordingInputPorts draws).Nodup ↔ draws.Nodup) := by
  refine ⟨Nat.le_add_right _ _, ?_, ?_, ?_⟩
  · have hd := d.isLt
    simp only [recordingRtpPort]
    omega
  · exact fun h => h.of_map
  · intro h
    refine h.map ?_
    intro x y hxy
    have : x.val = y.val := Nat.add_left_cancel hxy
    exact Fin.ext this

/-! ## SFU media rooms (`mediaServer.js`): peers, producers, consumers,
auto-recording. Transports, RTP parameters, the FFmpeg process and the
worker pool are external side effects and are not part of the room state
the claims quantify over. -/

/-- Source: `producer.kind`. -/
inductive MediaKind
  | audio
  | video
deriving DecidableEq, Repr, BEq

/-- A producer owned by a peer (id and kind). -/
structure Producer where
  pid : Nat
  kind : MediaKind
deriving DecidableEq, Repr

/-- A peer of a media room: its producers and consumers maps (ids). -/
structure MediaPeer where
  id : Nat
  producers : List Producer
  consumers : List Nat
deriving DecidableEq, Repr

/-- The `room.recording` object (the fields the claims speak about; the
transports/consumers/SDP lists and the FFmpeg handle are side effects). -/
structure Recording where
  id : String
  startTime : Nat
  outputFile : String
  hasVideo : Bool
deriving DecidableEq, Repr

/-- A media room: `{ id, peers, recording }`. -/
structure MediaRoom where
  id : String
  peers : List MediaPeer
  recording : Option Recording
deriving DecidableEq, Repr

/-- Source: `room.peers.get(peerId)`. -/
def findMediaPeer (room : MediaRoom) (pid : Nat) : Option MediaPeer :=
  room.peers.find? (fun p => p.id == pid)

/-- The owner-search loop of `consume`: the first peer whose producers map
holds `producerId`. -/
def findProducerOwner (room : MediaRoom) (producerId : Nat) : Option Nat :=
  (room.peers.find?
    (fun p => p.producers.any (fun pr => pr.pid == producerId))).map (·.id)

/-- Source: `peer.consumers.set(consumer.id, consumer)`. -/
def addConsumer (room : MediaRoom) (pid cid : Nat) : MediaRoom :=
  { room with
    peers := room.peers.map (fun p =>
      if p.id = pid then { p with consumers := p.consumers ++ [cid] } else p) }

/-- Source: `MediaServer.consume`: look the peer up, find the producer's owner, fail
on a self-consume (`Cannot consume own producer`), fail when the router
cannot consume (`canCons` stands for `router.canConsume(...)`), otherwise
create the consumer. The state is returned unchanged on every error. -/
def consume (room : MediaRoom) (peerId producerId : Nat) (canCons : Bool)
    (newConsumerId : Nat) : MediaRoom × Except String Nat :=
  match findMediaPeer room peerId with
  | none => (room, Except.error ("Peer " ++ toString peerId ++ " not found"))
  | some _ =>
      match findProducerOwner room producerId with
      | none =>
          (room, Except.error ("Producer " ++ toString producerId ++ " not found"))
      | some ownerId =>
          if ownerId = peerId then
            (room, Except.error "Cannot consume own producer")
          else if canCons = false then
            (room, Except.error "Cannot consume this producer")
          else
            (addConsumer room peerId newConsumerId, Except.ok newConsumerId)

/-- The `hasVideo` scan of `startRecording`: any peer with any producer of
kind `video`. -/
def hasVideoProducer (room : MediaRoom) : Bool :=
  room.peers.any (fun p => p.producers.any (fun pr => pr.kind == MediaKind.video))

/-- Source: `MediaServer.startRecording`: no-op when a recording is in progress;
otherwise allocate id `<roomId>_<epoch_ms>` and the output file
`path.join(RECORDINGS_DIR, <id>.mp4|mp3)` (modelled as `dir ++ "/" ++ name`)
by the `hasVideo` scan, and store the recording on the room. -/
def startRecording (dir : String) (room : MediaRoom) (T : Nat) : MediaRoom :=
  if room.recording.isSome then room
  else
    let recordingId := room.id ++ "_" ++ toString T
    let hasVideo := hasVideoProducer room
    let outputFile :=
      dir ++ "/" ++ recordingId ++ (if hasVideo then ".mp4" else ".mp3")
    { room with recording := some ⟨recordingId, T, outputFile, hasVideo⟩ }

/-- The count of `checkAndStartAutoRecording`: peers with at least one
producer. -/
def peersWithProducers (room : MediaRoom) : Nat :=
  (room.peers.filter (fun p => 0 < p.producers.length)).length

/-- Source: `MediaServer.checkAndStartAutoRecording`: return unchanged when already
recording; start when 2 or more peers are producing. -/
def checkAndStartAutoRecording (dir : String) (room : MediaRoom) (T : Nat) :
    MediaRoom :=
  if room.recording.isSome then room
  else if 2 ≤ peersWithProducers room then startRecording dir room T
  else room

/-- Source: `peer.producers.set(producer.id, producer)` inside `produce`. -/
def addProducer (room : MediaRoom) (pid : Nat) (prod : Producer) : MediaRoom :=
  { room with
    peers := room.peers.map (fun p =>
      if p.id = pid then { p with producers := p.producers ++ [prod] } else p) }

/-- Source: `MediaServer.produce`: require the peer, store the producer, then run
`checkAndStartAutoRecording`. -/
def mediaProduce (dir : String) (room : MediaRoom) (pid : Nat)
    (prod : Producer) (T : Nat) : Except String MediaRoom :=
  match findMediaPeer room pid with
  | none => Except.error ("Peer " ++ toString pid ++ " not found")
  | some _ =>
      Except.ok (checkAndStartAutoRecording dir (addProducer room pid prod) T)

/-- Source: `MediaServer.stopRecording` as it acts on the room state: the FFmpeg
shutdown, consumer/transport closing and SDP cleanup are side effects;
`room.recording` becomes `null`. -/
def stopRecording (room : MediaRoom) : MediaRoom :=
  { room with recording := none }

/-- Source: `MediaServer.removePeer`: no-op for an unknown peer; otherwise delete
the peer and stop the recording when one is active and fewer than 2 peers
remain (the empty-room cleanup that follows does not touch `recording`). -/
def removePeer (room : MediaRoom) (pid : Nat) : MediaRoom :=
  match findMediaPeer room pid with
  | none => room
  | some _ =>
      let room1 : MediaRoom :=
        { room with peers := room.peers.filter (fun p => p.id != pid) }
      if room1.recording.isSome ∧ room1.peers.length < 2 then stopRecording room1
      else room1

/-- C3: when the producer named in a `consume` request is owned by the
requesting peer itself, `consume` fails with `Cannot consume own producer`
and the room — in particular the peer's consumers map — is unchanged. -/
theorem c3_no_self_consume (room : MediaRoom) (peerId producerId : Nat)
    (canCons : Bool) (cid : Nat)
    (hpeer : (findMediaPeer room peerId).isSome)
    (howner : findProducerOwner room producerId = some peerId) :
    consume room peerId producerId canCons cid =
      (room, Except.error "Cannot consume own producer") := by
  obtain ⟨p, hf⟩ := Option.isSome_iff_exists.mp hpeer
  simp [consume, hf, howner]

/-- A room where peer 1 owns producer 10 and peer 2 owns nothing. -/
def exMediaRoom : MediaRoom :=
  { id := "r1", peers := [⟨1, [⟨10, .audio⟩], []⟩, ⟨2, [], []⟩],
    recording := none }

/-- Witness for C3: peer 1 asking to consume its own producer 10 is refused
and the room is unchanged. -/
theorem c3_witness :
    consume exMediaRoom 1 10 true 99 =
      (exMediaRoom, Except.error "Cannot consume own producer") :=
  c3_no_self_consume exMediaRoom 1 10 true 99 (by decide) (by decide)

/-- C4: after a producer creation (`produce`), a recording is started iff
none existed and at least 2 peers own a producer in the post-insert state;
and after a peer removal, the recording is stopped iff one exists and fewer
than 2 peers remain. -/
theorem c4_auto_recording_policy (dir : String) (room : MediaRoom) (pid : Nat)
    (prod : Producer) (T : Nat) (room' : MediaRoom)
    (hp : (findMediaPeer room pid).isSome)
    (hok : mediaProduce dir room pid prod T = Except.ok room') :
    ((room.recording = none ∧ room'.recording.isSome) ↔
      (room.recording = none ∧
        2 ≤ peersWithProducers (addProducer room pid prod))) ∧
    ((room.recording.isSome ∧ (removePeer room pid).recording = none) ↔
      (room.recording.isSome ∧
        (room.peers.filter (fun p => p.id != pid)).length < 2)) := by
  obtain ⟨p, hf⟩ := Option.isSome_iff_exists.mp hp
  have hr : room' = checkAndStartAutoRecording dir (addProducer room pid prod) T := by
    simp [mediaProduce, hf] at hok
    exact hok.symm
  subst hr
  have haddrec : (addProducer room pid prod).recording = room.recording := rfl
  constructor
  · cases hrec : room.recording with
    | some rec => simp [hrec]
    | none =>
        by_cases hc : 2 ≤ peersWithProducers (addProducer room pid prod)
        · simp [checkAndStartAutoRecording, haddrec, hrec, hc, startRecording]
        · simp [checkAndStartAutoRecording, haddrec, hrec, hc]
  · cases hrec : room.recording with
    | none => simp [hrec]
    | some rec =>
        by_cases hlen : (room.peers.filter (fun p => p.id != pid)).length < 2
        · simp [removePeer, hf, hrec, hlen, stopRecording]
        · simp [removePeer, hf, hrec, hlen]

/-- A recording-free room where peer 2 already produces audio and peer 1
produces nothing yet. -/
def exRoomTwoPeers : MediaRoom :=
  { id := "r2", peers := [⟨1, [], []⟩, ⟨2, [⟨11, .audio⟩], []⟩],
    recording := none }

/-- Witness for C4: peer 1 produces audio in `exRoomTwoPeers`; now 2 peers
produce, so the recording starts; and removing peer 1 drops the remaining
peer count below 2. -/
theorem c4_witness :
    ((exRoomTwoPeers.recording = none ∧
        (checkAndStartAutoRecording "recordings"
          (addProducer exRoomTwoPeers 1 ⟨10, .audio⟩) 0).recording.isSome) ↔
      (exRoomTwoPeers.recording = none ∧
        2 ≤ peersWithProducers (addProducer exRoomTwoPeers 1 ⟨10, .audio⟩))) ∧
    ((exRoomTwoPeers.recording.isSome ∧
        (removePeer exRoomTwoPeers 1).recording = none) ↔
      (exRoomTwoPeers.recording.isSome ∧
        (exRoomTwoPeers.peers.filter (fun p => p.id != 1)).length < 2)) :=
  c4_auto_recording_policy "recordings" exRoomTwoPeers 1 ⟨10, .audio⟩ 0
    (checkAndStartAutoRecording "recordings"
      (addProducer exRoomTwoPeers 1 ⟨10, .audio⟩) 0) (by decide) rfl

/-- C9: starting a recording in a room with none active allocates the id
`<roomId>_<T>` and the output path `<dir>/<id>.mp4` when some peer owns a
video producer, else `<dir>/<id>.mp3`. -/
theorem c9_recording_id_and_path (dir : String) (room : MediaRoom) (T : Nat)
    (hrec : room.recording = none) :
    (startRecording dir room T).recording =
      some { id := room.id ++ "_" ++ toString T,
             startTime := T,
             outputFile := dir ++ "/" ++ (room.id ++ "_" ++ toString T) ++
               (if room.peers.any
                   (fun p => p.producers.any
                     (fun pr => pr.kind == MediaKind.video)) then ".mp4"
                else ".mp3"),
             hasVideo := room.peers.any
               (fun p => p.producers.any
                 (fun pr => pr.kind == MediaKind.video)) } := by
  simp [startRecording, hrec, hasVideoProducer]

/-- A room whose two peers produce audio only. -/
def exAudioRoom : MediaRoom :=
  { id := "R", peers := [⟨1, [⟨10, .audio⟩], []⟩, ⟨2, [⟨11, .audio⟩], []⟩],
    recording := none }

/-- Witness for C9 at the audio-only room: no peer owns a video producer,
so the output path takes the `.mp3` branch. -/
theorem c9_witness :
    (startRecording "recordings" exAudioRoom 5).recording =
      some { id := exAudioRoom.id ++ "_" ++ toString 5,
             startTime := 5,
             outputFile := "recordings" ++ "/" ++
               (exAudioRoom.id ++ "_" ++ toString 5) ++
               (if exAudioRoom.peers.any
                   (fun p => p.producers.any
                     (fun pr => pr.kind == MediaKind.video)) then ".mp4"
                else ".mp3"),
             hasVideo := exAudioRoom.peers.any
               (fun p => p.producers.any
                 (fun pr => pr.kind == MediaKind.video)) } :=
  c9_recording_id_and_path "recordings" exAudioRoom 5 rfl

/-! ## REST user payloads (`UserQueries.sanitize` and the auth/admin
handlers of `index.js`). A user row is its list of named fields. -/

/-- One field of a `users` row: column name and value. -/
abbrev UserField := String × String

/-- Source: `UserQueries.sanitize`: `const { password, ...safe } = user` — drop the
`password` own-property, keep every other field in place. -/
def sanitize (user : List UserField) : List UserField :=
  user.filter (fun f => f.1 != "password")

/-- Source: `POST /api/auth/register`: the `user` part of the `201` body is
`sanitize(user)`. -/
def registerResponseUser (user : List UserField) : List UserField :=
  sanitize user

/-- Source: `POST /api/auth/login`: the `user` part of the `200` body is
`sanitize(user)`. -/
def loginResponseUser (user : List UserField) : List UserField :=
  sanitize user

/-- Source: `GET /api/admin/users/pending`: `users.map(sanitize)`. -/
def adminPendingResponseUsers (users : List (List UserField)) :
    List (List UserField) :=
  users.map sanitize

/-- Source: `GET /api/admin/users`: `users.map(sanitize)`. -/
def adminListResponseUsers (users : List (List UserField)) :
    List (List UserField) :=
  users.map sanitize

/-- Source: `POST /api/admin/users/:id/approve`: the body's user is
`sanitize(user)`. -/
def approveResponseUser (user : List UserField) : List UserField :=
  sanitize user

/-- Source: `POST /api/admin/users/:id/reject`: the body's user is
`sanitize(user)`. -/
def rejectResponseUser (user : List UserField) : List UserField :=
  sanitize user

/-- C10: `sanitize` keeps exactly the non-`password` fields (membership is
unchanged for every other field), and every user object each REST handler
places in its response body is free of the `password` field. -/
theorem c10_rest_responses_sanitized (user : List UserField)
    (users : List (List UserField)) (f : UserField) :
    (f ∈ sanitize user ↔ f ∈ user ∧ f.1 ≠ "password") ∧
    ((registerResponseUser user).all (fun g => g.1 != "password") = true) ∧
    ((loginResponseUser user).all (fun g => g.1 != "password") = true) ∧
    ((approveResponseUser user).all (fun g => g.1 != "password") = true) ∧
    ((rejectResponseUser user).all (fun g => g.1 != "password") = true) ∧
    ((adminPendingResponseUsers users).all
      (fun u => u.all (fun g => g.1 != "password")) = true) ∧
    ((adminListResponseUsers users).all
      (fun u => u.all (fun g => g.1 != "password")) = true) := by
  refine ⟨?_, ?_, ?_, ?_, ?_, ?_, ?_⟩
  · simp [sanitize, List.mem_filter]
  · simp only [registerResponseUser, sanitize, List.all_eq_true]
    exact fun g hg => (List.mem_filter.mp hg).2
  · simp only [loginResponseUser, sanitize, List.all_eq_true]
    exact fun g hg => (List.mem_filter.mp hg).2
  · simp only [approveResponseUser, sanitize, List.all_eq_true]
    exact fun g hg => (List.mem_filter.mp hg).2
  · simp only [rejectResponseUser, sanitize, List.all_eq_true]
    exact fun g hg => (List.mem_filter.mp hg).2
  · simp only [adminPendingResponseUsers, List.all_eq_true]
    intro u hu
    obtain ⟨u0, hu0, rfl⟩ := List.mem_map.mp hu
    simp only [sanitize, List.all_eq_true]
    exact fun g hg => (List.mem_filter.mp hg).2
  · simp only [adminListResponseUsers, List.all_eq_true]
    intro u hu
    obtain ⟨u0, hu0, rfl⟩ := List.mem_map.mp hu
    simp only [sanitize, List.all_eq_true]
    exact fun g hg => (List.mem_filter.mp hg).2

end SimChat
